import Mathlib

/-!
Verification development for the paginator state machine of
`examples/testing/pagination01.py` / `pagination06.py` / `pagination09.py`
and for the chat-entry dispatch logic of `panel/chat/entry.py`.

The Python code is embedded shallowly: the paginator is a record
`(items, page, page_size)` with pure transition functions; the reactive
`param` bounds declared on the fields (`page : bounds=(1, None)`,
`page_size : bounds=(1, None)`) are modelled as checked assignments that
report an error and leave the offending field unchanged, matching the
ValueError raised by the parameter framework.
-/

namespace Pagination

/-- State of the `Paginator` class: the item list (items are opaque, modelled
as naturals), the current page number and the page size.  `page_size_options`
and `pagination_position` are presentation-only and do not enter any claim. -/
structure PaginatorState where
  items : List Nat
  page : Nat
  page_size : Nat
deriving Repr, DecidableEq

/-- Integer ceiling division `(n + d - 1) / d`, the `ceiling_div` helper of
pagination09.py; pagination01/06 compute `math.ceil(len(items) / page_size)`,
which is the same value for a positive divisor. -/
def ceiling_div (n d : Nat) : Nat := (n + d - 1) / d

/-- The `num_pages` property (pagination01.py lines 54-61, pagination06.py
lines 54-58, pagination09.py lines 56-61): `1` for an empty item list
(Python truthiness of a list is non-emptiness), else `ceil(len(items) /
page_size)`. -/
def num_pages (s : PaginatorState) : Nat :=
  if s.items = [] then 1 else ceiling_div s.items.length s.page_size

/-- Errors surfaced by the parameter bounds / option validation:
`InvalidSize` is the ValueError from assigning `page_size < 1`
(bounds `(1, None)`), `OutOfRange` the rejection of a page value outside
the dropdown options or below the `page` lower bound. -/
inductive PagErr where
  | InvalidSize
  | OutOfRange
deriving Repr, DecidableEq

/-- The documented paginator invariant: `1 <= page <= num_pages` and
`page_size >= 1`. -/
def valid (s : PaginatorState) : Prop :=
  1 ≤ s.page ∧ s.page ≤ num_pages s ∧ 1 ≤ s.page_size

instance (s : PaginatorState) : Decidable (valid s) := by
  unfold valid; exact inferInstance

/-- `_first_page`: `self.page = 1`. -/
def first_page (s : PaginatorState) : PaginatorState := { s with page := 1 }

/-- `_last_page`: `self.page = self.num_pages`. -/
def last_page (s : PaginatorState) : PaginatorState := { s with page := num_pages s }

/-- `_previous_page`: `if self.page > 1: self.page -= 1` (silent clamp at the
lower bound). -/
def previous_page (s : PaginatorState) : PaginatorState :=
  if 1 < s.page then { s with page := s.page - 1 } else s

/-- `_next_page`: `if self.page < self.num_pages: self.page += 1` (silent
clamp at the upper bound). -/
def next_page (s : PaginatorState) : PaginatorState :=
  if s.page < num_pages s then { s with page := s.page + 1 } else s

/-- `_get_page_options` (pagination06.py lines 94-95): the dropdown offers
exactly the pages `1 .. num_pages`. -/
def page_options (s : PaginatorState) : List Nat :=
  List.range' 1 (num_pages s)

/-- Modelled from the spec: `_select_page` itself assigns
`self.page = event.new` unconditionally (pagination06.py lines 82-84); the
rejection of a value outside the dropdown's option list is performed by the
`Select` widget's option validation, which lives in widget code not under
`src/`.  Per the spec, values outside the current option list
(`_get_page_options`, i.e. `1 .. num_pages`) fail with `OutOfRange` and leave
the state unchanged; an in-range value is assigned to `page`. -/
def select_page (s : PaginatorState) (n : Nat) : PaginatorState × Option PagErr :=
  if n ∈ page_options s then ({ s with page := n }, none) else (s, some .OutOfRange)

/-- `_update_page_size` (pagination06.py lines 97-103, pagination09.py lines
100-106): remember the old page, assign `page_size` (the bounds `(1, None)`
reject a non-positive size before any mutation), recompute
`ceil(len(items) / page_size)` — note: without the empty-list guard of
`num_pages` — and assign `min(old_page, new_num_pages)` to `page`; the
`page` bounds `(1, None)` reject the assignment when that minimum is `0`
(which happens exactly on an empty item list), leaving `page` unchanged
while keeping the already-updated `page_size`. -/
def update_page_size (s : PaginatorState) (new_size : Nat) : PaginatorState × Option PagErr :=
  if new_size < 1 then (s, some .InvalidSize)
  else
    let s1 : PaginatorState := { s with page_size := new_size }
    let new_num_pages := ceiling_div s.items.length new_size
    let p := min s.page new_num_pages
    if p < 1 then (s1, some .OutOfRange)
    else ({ s1 with page := p }, none)

/-- The current page slice, `items[(page-1)*page_size : (page-1)*page_size +
page_size]` (pagination01.py `page_view` lines 113-119, pagination06.py
`view` lines 142-153). -/
def current_slice (s : PaginatorState) : List Nat :=
  (s.items.drop ((s.page - 1) * s.page_size)).take s.page_size

/-! Arithmetic helper lemmas about `ceiling_div`. -/

lemma ceiling_div_zero_left (d : Nat) (hd : 1 ≤ d) : ceiling_div 0 d = 0 := by
  unfold ceiling_div
  exact Nat.div_eq_of_lt (by omega)

lemma ceiling_div_eq_pred_div_add_one (n d : Nat) (hn : 1 ≤ n) (hd : 1 ≤ d) :
    ceiling_div n d = (n - 1) / d + 1 := by
  unfold ceiling_div
  have h1 : n + d - 1 = (n - 1) + d := by omega
  rw [h1, Nat.add_div_right _ (by omega)]

lemma one_le_ceiling_div (n d : Nat) (hn : 1 ≤ n) (hd : 1 ≤ d) :
    1 ≤ ceiling_div n d := by
  rw [ceiling_div_eq_pred_div_add_one n d hn hd]
  exact Nat.le_add_left 1 _

lemma le_ceiling_div_mul (n d : Nat) (hd : 1 ≤ d) :
    n ≤ ceiling_div n d * d := by
  rcases Nat.eq_zero_or_pos n with h0 | h1
  · simp [h0]
  · have hlt : n - 1 < ((n - 1) / d + 1) * d :=
      (Nat.div_lt_iff_lt_mul (by omega)).mp (Nat.lt_succ_self _)
    rw [ceiling_div_eq_pred_div_add_one n d h1 hd]
    rw [add_one_mul] at hlt ⊢
    generalize (n - 1) / d * d = Q at hlt ⊢
    omega

lemma ceiling_div_pred_mul_lt (n d : Nat) (hn : 1 ≤ n) (hd : 1 ≤ d) :
    (ceiling_div n d - 1) * d < n := by
  rw [ceiling_div_eq_pred_div_add_one n d hn hd, Nat.add_sub_cancel]
  have h2 : (n - 1) / d * d ≤ n - 1 := Nat.div_mul_le_self _ _
  generalize (n - 1) / d * d = Q at h2 ⊢
  omega

lemma ceiling_div_eq_zero_imp (n d : Nat) (hd : 1 ≤ d)
    (h : ceiling_div n d = 0) : n = 0 := by
  by_contra h0
  have := one_le_ceiling_div n d (by omega) hd
  omega

lemma one_le_num_pages (s : PaginatorState) (hp : 1 ≤ s.page_size) :
    1 ≤ num_pages s := by
  unfold num_pages
  split
  · omega
  · rename_i hne
    have hlen : 1 ≤ s.items.length := List.length_pos.mpr hne
    exact one_le_ceiling_div _ _ hlen hp

lemma num_pages_of_ne_nil (s : PaginatorState) (h : s.items ≠ []) :
    num_pages s = ceiling_div s.items.length s.page_size := by
  unfold num_pages
  simp [h]

lemma num_pages_set_page (s : PaginatorState) (x : Nat) :
    num_pages { s with page := x } = num_pages s := rfl

/-! Branch lemmas for `update_page_size`. -/

lemma update_page_size_lt (s : PaginatorState) (ns : Nat) (h : ns < 1) :
    update_page_size s ns = (s, some .InvalidSize) := by
  simp only [update_page_size]
  rw [if_pos h]

lemma update_page_size_empty (s : PaginatorState) (ns : Nat) (h : 1 ≤ ns)
    (he : s.items = []) :
    update_page_size s ns = ({ s with page_size := ns }, some .OutOfRange) := by
  simp only [update_page_size]
  rw [if_neg (by omega)]
  have h0 : s.items.length = 0 := by simp [he]
  have hc : ceiling_div s.items.length ns = 0 := by
    rw [h0]; exact ceiling_div_zero_left ns h
  simp only [hc, Nat.min_zero]
  rw [if_pos (by omega)]

lemma update_page_size_pos (s : PaginatorState) (ns : Nat) (h : 1 ≤ ns)
    (hne : s.items ≠ []) (hp : 1 ≤ s.page) :
    update_page_size s ns
      = (⟨s.items, min s.page (ceiling_div s.items.length ns), ns⟩, none) := by
  simp only [update_page_size]
  rw [if_neg (by omega)]
  have hN : 1 ≤ s.items.length := List.length_pos.mpr hne
  have hc : 1 ≤ ceiling_div s.items.length ns := one_le_ceiling_div _ _ hN h
  have hmin : 1 ≤ min s.page (ceiling_div s.items.length ns) := le_min hp hc
  rw [if_neg (by omega)]

/-- C9: for every item list of length `N ≥ 0` and every `page_size ≥ 1`,
`num_pages` returns `max(1, ceil(N / page_size))` — the ceiling written as
`(N + P - 1) / P` — in particular it returns `1`, never `0`, on an empty
item list, so a single empty page is always displayable; the last two
conjuncts are the defining property of the ceiling: `num_pages` pages cover
all items, and one page fewer does not. -/
theorem num_pages_spec (s : PaginatorState) (h : 1 ≤ s.page_size) :
    num_pages s = max 1 ((s.items.length + s.page_size - 1) / s.page_size)
    ∧ (s.items = [] → num_pages s = 1)
    ∧ 1 ≤ num_pages s
    ∧ s.items.length ≤ num_pages s * s.page_size
    ∧ (s.items ≠ [] → (num_pages s - 1) * s.page_size < s.items.length) := by
  refine ⟨?_, ?_, one_le_num_pages s h, ?_, ?_⟩
  · by_cases he : s.items = []
    · have h0 : s.items.length = 0 := by simp [he]
      rw [num_pages, if_pos he, h0]
      have hz : (0 + s.page_size - 1) / s.page_size = 0 := Nat.div_eq_of_lt (by omega)
      rw [hz]
      rfl
    · rw [num_pages_of_ne_nil s he]
      have hlen : 1 ≤ s.items.length := List.length_pos.mpr he
      have h1 := one_le_ceiling_div s.items.length s.page_size hlen h
      unfold ceiling_div at h1 ⊢
      exact (max_eq_right h1).symm
  · intro he
    simp [num_pages, he]
  · by_cases he : s.items = []
    · simp [he]
    · rw [num_pages_of_ne_nil s he]
      exact le_ceiling_div_mul _ _ h
  · intro he
    rw [num_pages_of_ne_nil s he]
    exact ceiling_div_pred_mul_lt _ _ (List.length_pos.mpr he) h

/-- Witness for C9 at the concrete empty paginator with page size 5. -/
theorem num_pages_spec_witness :
    num_pages ⟨[], 1, 5⟩ = 1 ∧ 1 ≤ num_pages ⟨[], 1, 5⟩ :=
  ⟨(num_pages_spec ⟨[], 1, 5⟩ (by decide)).2.1 rfl,
   (num_pages_spec ⟨[], 1, 5⟩ (by decide)).2.2.1⟩

/-- C8: `current_slice` equals `items[(page-1)*page_size : (page-1)*page_size
+ page_size]`; for every valid page its length is `page_size` except possibly
on the last page, where it is `N - (num_pages - 1) * page_size`, and it is
empty exactly when the item list is empty. -/
theorem current_slice_spec (s : PaginatorState) (h : valid s) :
    current_slice s = (s.items.drop ((s.page - 1) * s.page_size)).take s.page_size
    ∧ (s.page < num_pages s → (current_slice s).length = s.page_size)
    ∧ (s.page = num_pages s →
        (current_slice s).length = s.items.length - (num_pages s - 1) * s.page_size)
    ∧ ((current_slice s).length = 0 ↔ s.items = []) := by
  obtain ⟨h1, h2, h3⟩ := h
  have hlen : (current_slice s).length
      = min s.page_size (s.items.length - (s.page - 1) * s.page_size) := by
    simp [current_slice, List.length_take, List.length_drop]
  refine ⟨rfl, ?_, ?_, ?_⟩
  · intro hp
    have hne : s.items ≠ [] := by
      intro he
      have hnp : num_pages s = 1 := by simp [num_pages, he]
      omega
    have hN : 1 ≤ s.items.length := List.length_pos.mpr hne
    have hkey : (num_pages s - 1) * s.page_size < s.items.length := by
      rw [num_pages_of_ne_nil s hne]
      exact ceiling_div_pred_mul_lt _ _ hN h3
    have hmul : s.page * s.page_size ≤ (num_pages s - 1) * s.page_size :=
      Nat.mul_le_mul_right _ (by omega)
    have e1 : (s.page - 1) * s.page_size = s.page * s.page_size - s.page_size :=
      Nat.sub_one_mul _ _
    have e2 : (num_pages s - 1) * s.page_size
        = num_pages s * s.page_size - s.page_size := Nat.sub_one_mul _ _
    have hPA : s.page_size ≤ s.page * s.page_size :=
      Nat.le_mul_of_pos_left _ (by omega)
    rw [hlen, e1]
    rw [e2] at hkey hmul
    generalize s.page * s.page_size = A at hmul hPA ⊢
    generalize num_pages s * s.page_size = B at hmul hkey
    omega
  · intro hp
    rw [hlen, hp]
    have hle : s.items.length ≤ num_pages s * s.page_size := by
      by_cases he : s.items = []
      · simp [he]
      · rw [num_pages_of_ne_nil s he]
        exact le_ceiling_div_mul _ _ h3
    have e2 : (num_pages s - 1) * s.page_size
        = num_pages s * s.page_size - s.page_size := Nat.sub_one_mul _ _
    have hP : s.page_size ≤ num_pages s * s.page_size :=
      Nat.le_mul_of_pos_left _ (by omega)
    rw [e2]
    generalize num_pages s * s.page_size = B at hle hP ⊢
    omega
  · constructor
    · intro h0
      by_contra hne
      have hN : 1 ≤ s.items.length := List.length_pos.mpr hne
      have hkey : (num_pages s - 1) * s.page_size < s.items.length := by
        rw [num_pages_of_ne_nil s hne]
        exact ceiling_div_pred_mul_lt _ _ hN h3
      have hmul : (s.page - 1) * s.page_size ≤ (num_pages s - 1) * s.page_size :=
        Nat.mul_le_mul_right _ (by omega)
      rw [hlen] at h0
      generalize (s.page - 1) * s.page_size = A at h0 hmul
      generalize (num_pages s - 1) * s.page_size = B at hmul hkey
      omega
    · intro he
      rw [hlen]
      simp [he]

/-- Witness for C8 at the concrete paginator of the spec scenario:
32 items, page size 5, on the last page 7 the slice has `32 - 6*5 = 2`
items. -/
theorem current_slice_spec_witness :
    valid ⟨List.range 32, 7, 5⟩
    ∧ (current_slice ⟨List.range 32, 7, 5⟩).length
        = (List.range 32).length - (num_pages ⟨List.range 32, 7, 5⟩ - 1) * 5 :=
  ⟨by decide, (current_slice_spec ⟨List.range 32, 7, 5⟩ (by decide)).2.2.1 (by decide)⟩

/-- C1: every mutating operation (first, previous, next, last, page
selection, page-size resize), executed from a state satisfying
`1 ≤ page ≤ num_pages` and `page_size ≥ 1`, leaves the state again
satisfying that invariant — for every item list, including the empty one
(where a resize raises on the `page` bound but still leaves a valid state);
in particular a resize to any `new_size ≥ 1` leaves
`1 ≤ page ≤ num_pages(new_size)`. -/
theorem paginator_invariant_spec (s : PaginatorState) (h : valid s)
    (n new_size : Nat) :
    valid (first_page s) ∧ valid (last_page s) ∧ valid (previous_page s)
    ∧ valid (next_page s) ∧ valid (select_page s n).1
    ∧ valid (update_page_size s new_size).1
    ∧ (1 ≤ new_size → 1 ≤ (update_page_size s new_size).1.page
        ∧ (update_page_size s new_size).1.page
            ≤ num_pages (update_page_size s new_size).1) := by
  obtain ⟨h1, h2, h3⟩ := h
  have hnp1 : 1 ≤ num_pages s := by omega
  have hfirst : valid (first_page s) := ⟨le_refl 1, hnp1, h3⟩
  have hlast : valid (last_page s) := ⟨hnp1, le_refl _, h3⟩
  have hprev : valid (previous_page s) := by
    unfold previous_page
    split
    · refine ⟨?_, ?_, h3⟩
      · show 1 ≤ s.page - 1
        omega
      · show s.page - 1 ≤ num_pages { s with page := s.page - 1 }
        rw [num_pages_set_page]
        omega
    · exact ⟨h1, h2, h3⟩
  have hnext : valid (next_page s) := by
    unfold next_page
    split
    · refine ⟨?_, ?_, h3⟩
      · show 1 ≤ s.page + 1
        omega
      · show s.page + 1 ≤ num_pages { s with page := s.page + 1 }
        rw [num_pages_set_page]
        omega
    · exact ⟨h1, h2, h3⟩
  have hsel : valid (select_page s n).1 := by
    unfold select_page
    split
    · rename_i hm
      rw [page_options, List.mem_range'_1] at hm
      refine ⟨?_, ?_, h3⟩
      · show 1 ≤ n
        omega
      · show n ≤ num_pages { s with page := n }
        rw [num_pages_set_page]
        omega
    · exact ⟨h1, h2, h3⟩
  have hresize : valid (update_page_size s new_size).1 := by
    rcases Nat.lt_or_ge new_size 1 with hlt | hge
    · rw [update_page_size_lt s new_size hlt]
      exact ⟨h1, h2, h3⟩
    · by_cases he : s.items = []
      · rw [update_page_size_empty s new_size hge he]
        refine ⟨h1, ?_, hge⟩
        show s.page ≤ num_pages { s with page_size := new_size }
        have ha : num_pages { s with page_size := new_size } = 1 := by
          simp [num_pages, he]
        have hb : num_pages s = 1 := by simp [num_pages, he]
        omega
      · rw [update_page_size_pos s new_size hge he h1]
        have hN : 1 ≤ s.items.length := List.length_pos.mpr he
        have hc : 1 ≤ ceiling_div s.items.length new_size :=
          one_le_ceiling_div _ _ hN hge
        refine ⟨?_, ?_, hge⟩
        · show 1 ≤ min s.page (ceiling_div s.items.length new_size)
          exact le_min h1 hc
        · show min s.page (ceiling_div s.items.length new_size)
            ≤ num_pages ⟨s.items,
                min s.page (ceiling_div s.items.length new_size), new_size⟩
          have hq : num_pages (⟨s.items,
              min s.page (ceiling_div s.items.length new_size), new_size⟩ :
                PaginatorState)
              = ceiling_div s.items.length new_size := by
            simp [num_pages, he]
          rw [hq]
          exact min_le_right _ _
  exact ⟨hfirst, hlast, hprev, hnext, hsel, hresize,
    fun _ => ⟨hresize.1, hresize.2.1⟩⟩

/-- Witness for C1 at the concrete paginator of the spec scenario. -/
theorem paginator_invariant_spec_witness :
    valid ⟨List.range 32, 7, 5⟩
    ∧ valid (update_page_size ⟨List.range 32, 7, 5⟩ 10).1 :=
  ⟨by decide,
   (paginator_invariant_spec ⟨List.range 32, 7, 5⟩ (by decide) 3 10).2.2.2.2.2.1⟩

/-- C2: `resize(new_size)` fails with `InvalidSize` exactly when
`new_size < 1` (leaving the state unchanged); for `new_size ≥ 1`, starting
from a valid state, it sets `page_size = new_size`, keeps the items, and the
resulting page is `min(page, num_pages)` of the resulting state
(preserve-and-clamp); concretely, from 32 items, `page_size = 5`, `page = 7`
(where `num_pages = 7` and the last slice has 2 items), `resize(10)` yields
`num_pages = 4` and `page = 4`, not a reset to page 1. -/
theorem resize_spec (s : PaginatorState) (new_size : Nat) (h : valid s) :
    ((update_page_size s new_size).2 = some .InvalidSize ↔ new_size < 1)
    ∧ (new_size < 1 → (update_page_size s new_size).1 = s)
    ∧ (1 ≤ new_size →
        (update_page_size s new_size).1.page_size = new_size
        ∧ (update_page_size s new_size).1.items = s.items
        ∧ (update_page_size s new_size).1.page
            = min s.page (num_pages (update_page_size s new_size).1))
    ∧ (update_page_size ⟨List.range 32, 7, 5⟩ 10 = (⟨List.range 32, 4, 10⟩, none)
       ∧ num_pages ⟨List.range 32, 7, 5⟩ = 7
       ∧ (current_slice ⟨List.range 32, 7, 5⟩).length = 2) := by
  obtain ⟨h1, h2, h3⟩ := h
  refine ⟨⟨?_, ?_⟩, ?_, ?_, by decide, by decide, by decide⟩
  · intro he
    by_contra hns
    push_neg at hns
    by_cases hE : s.items = []
    · rw [update_page_size_empty s new_size hns hE] at he
      simp at he
    · rw [update_page_size_pos s new_size hns hE h1] at he
      simp at he
  · intro hlt
    rw [update_page_size_lt s new_size hlt]
  · intro hlt
    rw [update_page_size_lt s new_size hlt]
  · intro hge
    by_cases hE : s.items = []
    · rw [update_page_size_empty s new_size hge hE]
      refine ⟨rfl, rfl, ?_⟩
      show s.page = min s.page (num_pages { s with page_size := new_size })
      have ha : num_pages { s with page_size := new_size } = 1 := by
        simp [num_pages, hE]
      have hb : num_pages s = 1 := by simp [num_pages, hE]
      omega
    · rw [update_page_size_pos s new_size hge hE h1]
      refine ⟨rfl, rfl, ?_⟩
      show min s.page (ceiling_div s.items.length new_size)
          = min s.page (num_pages ⟨s.items,
              min s.page (ceiling_div s.items.length new_size), new_size⟩)
      have hq : num_pages (⟨s.items,
          min s.page (ceiling_div s.items.length new_size), new_size⟩ :
            PaginatorState)
          = ceiling_div s.items.length new_size := by
        simp [num_pages, hE]
      rw [hq]

/-- Witness for C2 at the concrete spec scenario. -/
theorem resize_spec_witness :
    valid ⟨List.range 32, 7, 5⟩
    ∧ (update_page_size ⟨List.range 32, 7, 5⟩ 10).1.page_size = 10 :=
  ⟨by decide,
   ((resize_spec ⟨List.range 32, 7, 5⟩ 10 (by decide)).2.2.1 (by decide)).1⟩

/-- C6: direct page selection fails with `OutOfRange` for every `n` outside
the currently valid page set `1 .. num_pages` (which is exactly the dropdown
option list `_get_page_options` produces), leaving the state unchanged, and
sets `page = n` for every `n` inside that set. -/
theorem goto_spec (s : PaginatorState) (n : Nat) :
    (n ∈ page_options s ↔ 1 ≤ n ∧ n ≤ num_pages s)
    ∧ (1 ≤ n → n ≤ num_pages s → select_page s n = ({ s with page := n }, none))
    ∧ (¬(1 ≤ n ∧ n ≤ num_pages s) → select_page s n = (s, some .OutOfRange)) := by
  have hmem : n ∈ page_options s ↔ 1 ≤ n ∧ n ≤ num_pages s := by
    rw [page_options, List.mem_range'_1]
    omega
  refine ⟨hmem, ?_, ?_⟩
  · intro hge hle
    unfold select_page
    rw [if_pos (hmem.mpr ⟨hge, hle⟩)]
  · intro hn
    unfold select_page
    rw [if_neg (fun hm => hn (hmem.mp hm))]

/-- Witness for C6: with 32 items and page size 5 there are 7 pages; going to
page 7 succeeds, going to page 8 fails with `OutOfRange`. -/
theorem goto_spec_witness :
    select_page ⟨List.range 32, 1, 5⟩ 7 = (⟨List.range 32, 7, 5⟩, none)
    ∧ select_page ⟨List.range 32, 1, 5⟩ 8
        = (⟨List.range 32, 1, 5⟩, some .OutOfRange) :=
  ⟨(goto_spec ⟨List.range 32, 1, 5⟩ 7).2.1 (by decide) (by decide),
   (goto_spec ⟨List.range 32, 1, 5⟩ 8).2.2 (by decide)⟩

end Pagination

namespace Chat

/-! Embedding of the dispatch, avatar and update logic of
`panel/chat/entry.py`.  Python string methods are modelled over the
character list of the `String` (the strings involved are ASCII). -/

/-- Python `str.startswith`. -/
def pyStartsWith (s p : String) : Bool :=
  s.data.take p.data.length == p.data

/-- Python `str.endswith`. -/
def pyEndsWith (s p : String) : Bool :=
  s.data.drop (s.data.length - p.data.length) == p.data

/-- The rendering strategy picked by `_select_renderer` (entry.py lines
305-340): the `renderer` local, which starts as the generic `_panel` and is
replaced by the matching branch. -/
inductive RendererKind where
  | generic
  | pdf
  | audio
  | video
  | image
  | dataframe
deriving Repr, DecidableEq

/-- What `_select_renderer` does to the `contents` argument in each branch:
wrapped in an in-memory `BytesIO` buffer, written to a named temporary file,
parsed as CSV into a dataframe, decoded from bytes to text, or passed
through unchanged. -/
inductive ContentsForm where
  | buffered
  | tempFile
  | parsedCSV
  | decodedText
  | unchanged
deriving Repr, DecidableEq

/-- `_select_renderer` (entry.py lines 305-340): the ordered
prefix/suffix dispatch on the declared mime type. -/
def select_renderer (mime : String) : ContentsForm × RendererKind :=
  if mime = "application/pdf" then (.buffered, .pdf)
  else if pyStartsWith mime "audio/" then (.tempFile, .audio)
  else if pyStartsWith mime "video/" then (.buffered, .video)
  else if pyStartsWith mime "image/" then (.buffered, .image)
  else if pyEndsWith mime "/csv" then (.parsedCSV, .dataframe)
  else if pyStartsWith mime "text" then (.decodedText, .generic)
  else (.unchanged, .generic)

/-- C7: the declared mime type selects the rendering strategy by the ordered
prefix/suffix rules of `_select_renderer` — exact `application/pdf` →
document renderer on a buffer, prefix `audio/` → audio renderer via a
temporary file, prefix `video/` → video renderer on a buffer, prefix
`image/` → image renderer on a buffer, suffix `/csv` → tabular renderer on
parsed CSV, prefix `text` → decoded string with the generic renderer — and
every unmatched type falls to the generic renderer; concretely `image/png`
selects the image renderer and `application/json` the generic one. -/
theorem mime_dispatch_spec (m : String) :
    (m = "application/pdf" → select_renderer m = (.buffered, .pdf))
    ∧ (m ≠ "application/pdf" → pyStartsWith m "audio/" = true →
        select_renderer m = (.tempFile, .audio))
    ∧ (m ≠ "application/pdf" → pyStartsWith m "audio/" = false →
        pyStartsWith m "video/" = true →
        select_renderer m = (.buffered, .video))
    ∧ (m ≠ "application/pdf" → pyStartsWith m "audio/" = false →
        pyStartsWith m "video/" = false → pyStartsWith m "image/" = true →
        select_renderer m = (.buffered, .image))
    ∧ (m ≠ "application/pdf" → pyStartsWith m "audio/" = false →
        pyStartsWith m "video/" = false → pyStartsWith m "image/" = false →
        pyEndsWith m "/csv" = true →
        select_renderer m = (.parsedCSV, .dataframe))
    ∧ (m ≠ "application/pdf" → pyStartsWith m "audio/" = false →
        pyStartsWith m "video/" = false → pyStartsWith m "image/" = false →
        pyEndsWith m "/csv" = false → pyStartsWith m "text" = true →
        select_renderer m = (.decodedText, .generic))
    ∧ (m ≠ "application/pdf" → pyStartsWith m "audio/" = false →
        pyStartsWith m "video/" = false → pyStartsWith m "image/" = false →
        pyEndsWith m "/csv" = false → pyStartsWith m "text" = false →
        select_renderer m = (.unchanged, .generic))
    ∧ select_renderer "image/png" = (.buffered, .image)
    ∧ select_renderer "application/json" = (.unchanged, .generic) := by
  refine ⟨?_, ?_, ?_, ?_, ?_, ?_, ?_, by decide, by decide⟩
  · intro h1
    rw [h1]
    rfl
  · intro h1 h2
    simp [select_renderer, h1, h2]
  · intro h1 h2 h3
    simp [select_renderer, h1, h2, h3]
  · intro h1 h2 h3 h4
    simp [select_renderer, h1, h2, h3, h4]
  · intro h1 h2 h3 h4 h5
    simp [select_renderer, h1, h2, h3, h4, h5]
  · intro h1 h2 h3 h4 h5 h6
    simp [select_renderer, h1, h2, h3, h4, h5, h6]
  · intro h1 h2 h3 h4 h5 h6
    simp [select_renderer, h1, h2, h3, h4, h5, h6]

/-- Witness for C7: an audio mime type takes the temporary-file audio
branch. -/
theorem mime_dispatch_spec_witness :
    select_renderer "audio/mpeg" = (.tempFile, .audio) :=
  (mime_dispatch_spec "audio/mpeg").2.1 (by decide) (by decide)

/-- The candidate loop of `_create_panel` (entry.py lines 390-401): try each
renderer in order; a candidate that raises, or returns something that is not
a `Viewable`, is modelled as returning `none` and is discarded in favour of
the next; the first candidate producing a renderable composite wins. -/
def try_renderers {α β : Type} : List (α → Option β) → α → Option β
  | [], _ => none
  | r :: rest, v =>
    match r v with
    | some p => some p
    | none => try_renderers rest v

/-- `_create_panel` for a non-`Viewable` value (entry.py lines 369-406): the
candidate list is the caller-supplied `renderers` followed by the
mime-selected strategy (`renderers.append(renderer)`); if no candidate
succeeds, the `for`/`else` clause applies the generic `_panel` renderer,
modelled as a total function per the external contract that it must not
fail. -/
def create_panel {α β : Type} (user_renderers : List (α → Option β))
    (selected : α → Option β) (generic : α → β) (v : α) : β :=
  match try_renderers (user_renderers ++ [selected]) v with
  | some p => p
  | none => generic v

lemma try_renderers_none {α β : Type} (rs : List (α → Option β)) (v : α)
    (h : ∀ r ∈ rs, r v = none) : try_renderers rs v = none := by
  induction rs with
  | nil => rfl
  | cons r rest ih =>
    have hr : r v = none := h r (List.mem_cons_self r rest)
    simp only [try_renderers, hr]
    exact ih (fun x hx => h x (List.mem_cons_of_mem r hx))

lemma try_renderers_first {α β : Type} (rs1 : List (α → Option β))
    (c : α → Option β) (rs2 : List (α → Option β)) (v : α) (p : β)
    (h1 : ∀ r ∈ rs1, r v = none) (hc : c v = some p) :
    try_renderers (rs1 ++ c :: rs2) v = some p := by
  induction rs1 with
  | nil => simp only [List.nil_append, try_renderers, hc]
  | cons r rest ih =>
    have hr : r v = none := h1 r (List.mem_cons_self r rest)
    simp only [List.cons_append, try_renderers, hr]
    exact ih (fun x hx => h1 x (List.mem_cons_of_mem r hx))

/-- C3: chat value rendering never surfaces an error — candidates are tried
in order, caller-supplied renderers first and the mime-selected strategy
last; a failing candidate (modelled as `none`) is discarded in favour of the
next; the first renderer anywhere in the caller list that succeeds wins; and
when every explicit candidate fails the generic renderer is applied as the
guaranteed terminal result. -/
theorem render_fallback_spec {α β : Type} (rs1 rs2 : List (α → Option β))
    (c selected : α → Option β) (generic : α → β) (v : α) (p : β) :
    ((∀ r ∈ rs1, r v = none) → selected v = none →
        create_panel rs1 selected generic v = generic v)
    ∧ ((∀ r ∈ rs1, r v = none) → c v = some p →
        create_panel (rs1 ++ c :: rs2) selected generic v = p)
    ∧ ((∀ r ∈ rs1, r v = none) → selected v = some p →
        create_panel rs1 selected generic v = p) := by
  refine ⟨?_, ?_, ?_⟩
  · intro hall hsel
    have hnone : try_renderers (rs1 ++ [selected]) v = none := by
      apply try_renderers_none
      intro r hr
      rcases List.mem_append.mp hr with h | h
      · exact hall r h
      · rw [List.mem_singleton] at h
        subst h
        exact hsel
    unfold create_panel
    rw [hnone]
  · intro hall hc
    have hre : (rs1 ++ c :: rs2) ++ [selected] = rs1 ++ c :: (rs2 ++ [selected]) := by
      simp
    unfold create_panel
    rw [hre, try_renderers_first rs1 c _ v p hall hc]
  · intro hall hsel
    unfold create_panel
    rw [try_renderers_first rs1 selected [] v p hall hsel]

/-- Witness for C3 on concrete candidate lists over naturals: an all-failing
list falls to the generic renderer, and the first succeeding candidate after
a failing one wins. -/
theorem render_fallback_spec_witness :
    create_panel ([fun _ => none] : List (Nat → Option Nat))
        (fun _ => none) (fun n => n + 100) 3 = 103
    ∧ create_panel ([fun _ => none, fun n => some (n + 1)] : List (Nat → Option Nat))
        (fun _ => none) (fun n => n + 100) 3 = 4 :=
  ⟨(render_fallback_spec [fun _ => none] [] (fun _ => none)
      (fun _ => none) (fun n => n + 100) 3 0).1
      (by intro r hr; rw [List.mem_singleton] at hr; subst hr; rfl) rfl,
   (render_fallback_spec [fun _ => none] [] (fun n => some (n + 1))
      (fun _ => none) (fun n => n + 100) 3 4).2.1
      (by intro r hr; rw [List.mem_singleton] at hr; subst hr; rfl) rfl⟩

/-! Avatar resolution. -/

/-- `_to_alpha_numeric` (entry.py lines 281-287): `re.sub(r"\W+", "",
user).lower()` removes every regex non-word character — keeping letters,
digits and the underscore — then lowercases (ASCII model of the regex
classes). -/
def to_alpha_numeric (u : String) : String :=
  String.mk ((u.data.filter (fun c => c.isAlphanum || c == '_')).map Char.toLower)

/-- Normalisation as the claim words it: strip non-alphanumeric characters
(which would strip the underscore too) and lowercase; defined only to be
compared against the code's `to_alpha_numeric`. -/
def spec_strip_non_alphanumeric (u : String) : String :=
  String.mk ((u.data.filter (fun c => c.isAlphanum)).map Char.toLower)

def USER_LOGO : String := "🧑"
def ASSISTANT_LOGO : String := "🤖"
def SYSTEM_LOGO : String := "⚙️"
def ERROR_LOGO : String := "❌"
def GPT_3_LOGO : String :=
  "https://upload.wikimedia.org/wikipedia/commons/thumb/0/04/ChatGPT_logo.svg/1024px-ChatGPT_logo.svg.png?20230318122128"
def GPT_4_LOGO : String :=
  "https://upload.wikimedia.org/wikipedia/commons/a/a4/GPT-4.png"
def WOLFRAM_LOGO : String :=
  "https://upload.wikimedia.org/wikipedia/commons/thumb/e/eb/WolframCorporateLogo.svg/1920px-WolframCorporateLogo.svg.png"

/-- The built-in `DEFAULT_AVATARS` table (entry.py lines 42-85), in source
order (a Python dict iterates in insertion order). -/
def DEFAULT_AVATARS : List (String × String) := [
  ("client", USER_LOGO),
  ("customer", USER_LOGO),
  ("employee", USER_LOGO),
  ("human", USER_LOGO),
  ("person", USER_LOGO),
  ("user", USER_LOGO),
  ("agent", ASSISTANT_LOGO),
  ("ai", ASSISTANT_LOGO),
  ("assistant", ASSISTANT_LOGO),
  ("bot", ASSISTANT_LOGO),
  ("chatbot", ASSISTANT_LOGO),
  ("machine", ASSISTANT_LOGO),
  ("robot", ASSISTANT_LOGO),
  ("system", SYSTEM_LOGO),
  ("exception", ERROR_LOGO),
  ("error", ERROR_LOGO),
  ("adult", "🧑"),
  ("baby", "👶"),
  ("boy", "👦"),
  ("child", "🧒"),
  ("girl", "👧"),
  ("man", "👨"),
  ("woman", "👩"),
  ("chatgpt", GPT_3_LOGO),
  ("gpt3", GPT_3_LOGO),
  ("gpt4", GPT_4_LOGO),
  ("dalle", GPT_4_LOGO),
  ("openai", GPT_4_LOGO),
  ("huggingface", "🤗"),
  ("calculator", "🧮"),
  ("langchain", "🦜"),
  ("translator", "🌐"),
  ("wolfram", WOLFRAM_LOGO),
  ("wolfram alpha", WOLFRAM_LOGO),
  ("llama", "🦙"),
  ("llama2", "🐪")]

/-- Python `dict` assignment `d[k] = v`: replace the value in place if the
key exists (keeping its position), else append the pair. -/
def dict_update (d : List (String × String)) (k v : String) :
    List (String × String) :=
  if d.any (fun p => p.1 == k) then
    d.map (fun p => if p.1 == k then (k, v) else p)
  else d ++ [(k, v)]

/-- Python `dict.update`: assign every pair of `e` into `d` in order. -/
def dict_update_all (d e : List (String × String)) : List (String × String) :=
  e.foldl (fun acc kv => dict_update acc kv.1 kv.2) d

/-- Value lookup in a Python dict rebuilt from the listed pairs in order
(the dict comprehension of `_avatar_lookup` re-keys entries, and on a key
collision the last inserted value wins): the value for `k` is the one of the
last pair bearing it. -/
def dict_get_last (d : List (String × String)) (k : String) : Option String :=
  ((d.filter (fun p => p.1 == k)).getLast?).map (fun p => p.2)

/-- The merged table of `_avatar_lookup` (entry.py lines 289-303): copy the
built-in `DEFAULT_AVATARS`, `update` it with the caller's `default_avatars`
(caller entries take precedence), then re-key every entry with
`_to_alpha_numeric`. -/
def merged_avatars (davatars : List (String × String)) :
    List (String × String) :=
  (dict_update_all DEFAULT_AVATARS davatars).map
    (fun p => (to_alpha_numeric p.1, p.2))

/-- `_avatar_lookup` (entry.py lines 289-303): look the normalised user name
up in the merged table; on a miss `dict.get` returns its default, which the
code passes as the current avatar. -/
def avatar_lookup_fn (user : String) (davatars : List (String × String))
    (curAvatar : String) : String :=
  (dict_get_last (merged_avatars davatars) (to_alpha_numeric user)).getD curAvatar

/-- `_update_avatar` (entry.py lines 463-476): with `avatar_lookup` set,
call it on the user and disregard the table; otherwise use
`_avatar_lookup`. -/
def update_avatar (lookupFn : Option (String → String))
    (davatars : List (String × String)) (curAvatar user : String) : String :=
  match lookupFn with
  | some f => f user
  | none => avatar_lookup_fn user davatars curAvatar

/-- The fallback of `_render_avatar` (entry.py lines 408-431): when the
avatar is unset (empty string, Python-falsy) and the user name is
non-empty, display the first character of the user name. -/
def render_avatar_fallback (avatar user : String) : String :=
  if avatar = "" then
    match user.data with
    | [] => avatar
    | c :: _ => String.mk [c]
  else avatar

/-- C5 (amended): avatar resolution uses `avatar_lookup(user)` when a lookup
function is set; otherwise it normalises the user name by stripping every
character that is neither alphanumeric nor an underscore (the regex
non-word characters) and lowercasing, looks the key up in the built-in
table overlaid by the caller's `default_avatars` (both re-normalised, caller
entries taking precedence, last normalised-key collision winning), and when
no entry matches the avatar stays unset so rendering falls back to the
first character of the user name; concretely "Dr. Ada!" normalises to
"drada" and, being absent from the table, renders as "D". -/
theorem avatar_resolution_spec (f : String → String)
    (davatars : List (String × String)) (cur u v : String) :
    update_avatar (some f) davatars cur u = f u
    ∧ (dict_get_last (merged_avatars davatars) (to_alpha_numeric u) = some v →
        update_avatar none davatars cur u = v)
    ∧ (dict_get_last (merged_avatars davatars) (to_alpha_numeric u) = none →
        update_avatar none davatars cur u = cur)
    ∧ (∀ c rest, u.data = c :: rest →
        render_avatar_fallback "" u = String.mk [c])
    ∧ to_alpha_numeric "Dr. Ada!" = "drada"
    ∧ dict_get_last (merged_avatars []) "drada" = none
    ∧ render_avatar_fallback (update_avatar none [] "" "Dr. Ada!") "Dr. Ada!"
        = "D" := by
  refine ⟨rfl, ?_, ?_, ?_, rfl, rfl, rfl⟩
  · intro hv
    simp [update_avatar, avatar_lookup_fn, hv]
  · intro hv
    simp [update_avatar, avatar_lookup_fn, hv]
  · intro c rest hu
    simp [render_avatar_fallback, hu]

/-- Witness for C5 at concrete users: a user absent from the table keeps the
current avatar, and user "ai" resolves to the assistant logo. -/
theorem avatar_resolution_spec_witness :
    update_avatar none [] "😎" "nonexistentuser" = "😎"
    ∧ update_avatar none [] "" "ai" = ASSISTANT_LOGO :=
  ⟨(avatar_resolution_spec (fun _ => "") [] "😎" "nonexistentuser" "").2.2.1 rfl,
   (avatar_resolution_spec (fun _ => "") [] "" "ai" ASSISTANT_LOGO).2.1 rfl⟩

/-- Counterexample for C5 as stated: the code normalises with the regex
`\W+`, which keeps the underscore — it does not strip every non-alphanumeric
character.  For user "us_er" the claim's normalisation gives "user", a key
present in the built-in table (mapping to the user logo 🧑), but the code
keeps the key "us_er", finds no entry, leaves the avatar unset and renders
the first character "u" instead. -/
theorem avatar_normalization_cex :
    spec_strip_non_alphanumeric "us_er" = "user"
    ∧ to_alpha_numeric "us_er" = "us_er"
    ∧ dict_get_last (merged_avatars []) "user" = some USER_LOGO
    ∧ dict_get_last (merged_avatars []) (to_alpha_numeric "us_er") = none
    ∧ update_avatar none [] "" "us_er" = ""
    ∧ render_avatar_fallback (update_avatar none [] "" "us_er") "us_er" = "u" :=
  ⟨rfl, rfl, rfl, rfl, rfl, rfl⟩

/-! The mapping branch of `update`. -/

/-- The mapping branch of `ChatEntry.update` (entry.py lines 554-560): the
`updates` dict starts from the caller's field mapping, then the explicitly
passed `user` and `avatar` are merged only if they are truthy (`if user:` /
`if avatar:` — `None` and the empty string are dropped silently). -/
def update_mapping (m : List (String × String))
    (user avatar : Option String) : List (String × String) :=
  let u2 := match user with
    | some u => if u = "" then m else dict_update m "user" u
    | none => m
  match avatar with
    | some a => if a = "" then u2 else dict_update u2 "avatar" a
    | none => u2

/-- C10: in `update()` with a mapping value, the explicitly passed `user`
and `avatar` are merged into the applied update only when truthy — passing
an empty string silently drops the override and applies only the mapping's
own entries, while a non-empty string is merged on top of the mapping. -/
theorem update_mapping_truthiness (m : List (String × String)) (u a : String) :
    update_mapping m (some "") none = m
    ∧ update_mapping m none (some "") = m
    ∧ update_mapping m (some "") (some "") = m
    ∧ update_mapping m none none = m
    ∧ (u ≠ "" → update_mapping m (some u) none = dict_update m "user" u)
    ∧ (a ≠ "" → update_mapping m none (some a) = dict_update m "avatar" a) := by
  refine ⟨rfl, rfl, rfl, rfl, ?_, ?_⟩
  · intro hu
    simp [update_mapping, hu]
  · intro ha
    simp [update_mapping, ha]

/-- Witness for C10: an explicit non-empty user is merged, an empty one is
dropped. -/
theorem update_mapping_truthiness_witness :
    update_mapping [("value", "hello")] (some "Bob") none
      = dict_update [("value", "hello")] "user" "Bob"
    ∧ update_mapping [("value", "hello")] (some "") none = [("value", "hello")] :=
  ⟨(update_mapping_truthiness [("value", "hello")] "Bob" "x").2.2.2.2.1
     (by decide),
   (update_mapping_truthiness [("value", "hello")] "Bob" "x").1⟩

/-! The `stream` traversal. -/

/-- Deep embedding of the Python object shapes `stream` traverses (entry.py
lines 499-534): a plain string payload; a markup-like pane holding an
`object` attribute; an image pane (an `ImageBase`, also holding `object`);
a widget holding a `value` attribute; a layout holding an `objects` list; or
any other Python object with none of those attributes (an integer, say).
`objectsClobbered` represents a layout whose `objects` attribute was
overwritten with a plain string by the final `setattr` — reachable only
when a layout directly holds a raw string child. -/
inductive PNode where
  | strVal (s : String)
  | htmlPane (child : PNode)
  | imagePane (child : PNode)
  | widgetPane (child : PNode)
  | layout (children : List PNode)
  | rawVal (k : Nat)
  | objectsClobbered (s : String)

/-- Attribute access as the loop performs it: `object` and `value` hold a
single child (index 0), `objects` is indexed. -/
def childAt : PNode → Nat → Option PNode
  | .htmlPane c, 0 => some c
  | .imagePane c, 0 => some c
  | .widgetPane c, 0 => some c
  | .layout cs, k => cs[k]?
  | _, _ => none

/-- The node of `t` at a path of child indices. -/
def nodeAt : PNode → List Nat → Option PNode
  | t, [] => some t
  | t, k :: p =>
    match childAt t k with
    | some c => nodeAt c p
    | none => none

/-- Replace the node of `t` at `path` by `f` applied to it (no change on a
dangling path). -/
def updateAt : PNode → List Nat → (PNode → PNode) → PNode
  | t, [], f => f t
  | t, k :: p, f =>
    match t with
    | .htmlPane c => if k = 0 then .htmlPane (updateAt c p f) else t
    | .imagePane c => if k = 0 then .imagePane (updateAt c p f) else t
    | .widgetPane c => if k = 0 then .widgetPane (updateAt c p f) else t
    | .layout cs =>
      match cs[k]? with
      | some c => .layout (cs.set k (updateAt c p f))
      | none => t
    | _ => t

/-- The loop state of `stream`: the path of `value_panel`, the path of
`value`, the remembered `parent_panel`, and the Python index `i` — which is
always negative (it starts at `-1`, is reset to `-1` on entering a
container and decremented on backtracking), stored as the positive offset
`off = -i` from the end of the child list. -/
structure Cfg where
  panel : List Nat
  focus : List Nat
  parent : Option (List Nat)
  off : Nat
deriving Repr, DecidableEq

/-- Whether the node at `path` is a plain Python string. -/
def isStrAt (t : PNode) (path : List Nat) : Bool :=
  match nodeAt t path with
  | some (.strVal _) => true
  | _ => false

/-- Whether the node at `path` is an `ImageBase` pane. -/
def isImageAt (t : PNode) (path : List Nat) : Bool :=
  match nodeAt t path with
  | some (.imagePane _) => true
  | _ => false

/-- Negation of the `while` condition of `stream`: the current value is a
string and `value_panel` is not an image pane. -/
def isExitCfg (t : PNode) (c : Cfg) : Bool :=
  isStrAt t c.focus && !isImageAt t c.panel

inductive StepRes where
  | cont (c : Cfg)
  | exitAt (panel : List Nat) (focus : List Nat)
  | err
deriving Repr, DecidableEq

/-- One iteration of the `while` loop of `stream` (entry.py lines 512-533):
when the loop condition fails, report the exit state; otherwise set
`value_panel = value` and descend into `objects[i]` (resetting `i` to `-1`),
into `object`, or into `value`; when the current value has none of those
attributes, back up to the remembered `parent_panel`, forgetting it and
decrementing `i` — and with no remembered parent nothing changes, so the
Python loop spins forever.  An out-of-range `objects[i]` is a Python
`IndexError`, reported as `err`. -/
def stream_step (t : PNode) (c : Cfg) : StepRes :=
  if isExitCfg t c then .exitAt c.panel c.focus
  else
    match nodeAt t c.focus with
    | none => .err
    | some n =>
      match n with
      | .layout cs =>
        if 1 ≤ c.off ∧ c.off ≤ cs.length then
          .cont ⟨c.focus, c.focus ++ [cs.length - c.off], some c.focus, 1⟩
        else .err
      | .htmlPane _ => .cont ⟨c.focus, c.focus ++ [0], c.parent, c.off⟩
      | .imagePane _ => .cont ⟨c.focus, c.focus ++ [0], c.parent, c.off⟩
      | .widgetPane _ => .cont ⟨c.focus, c.focus ++ [0], c.parent, c.off⟩
      | _ =>
        match c.parent with
        | some pp => .cont ⟨c.focus, pp, none, c.off + 1⟩
        | none => .cont ⟨c.focus, c.focus, none, c.off⟩

/-- The final `setattr(value_panel, attr, value + token)` of `stream`: the
string at the focus is appended with the token and written into the
attribute the loop last read from the panel node — `object` of a markup or
image pane, `value` of a widget (and of the entry root wrapper), or
`objects` of a layout (which in Python replaces the whole child list with a
plain string, represented by `objectsClobbered`).  A panel with none of
those attributes — a plain string, reached when a string dead-end is hit
with no remembered parent — is a Python `AttributeError`, reported as
`none`. -/
def stream_exit (t : PNode) (panelPath focusPath : List Nat) (tok : String) :
    Option PNode :=
  match nodeAt t focusPath with
  | some (.strVal s) =>
    match nodeAt t panelPath with
    | some (.htmlPane _) =>
      some (updateAt t panelPath (fun _ => .htmlPane (.strVal (s ++ tok))))
    | some (.imagePane _) =>
      some (updateAt t panelPath (fun _ => .imagePane (.strVal (s ++ tok))))
    | some (.widgetPane _) =>
      some (updateAt t panelPath (fun _ => .widgetPane (.strVal (s ++ tok))))
    | some (.layout _) =>
      some (updateAt t panelPath (fun _ => .objectsClobbered (s ++ tok)))
    | _ => none
  | _ => none

/-- Run the loop for at most `fuel` iterations; `none` means the loop was
still running (or raised) after that many iterations. -/
def stream_iter (t : PNode) (tok : String) : Nat → Cfg → Option PNode
  | 0, _ => none
  | fuel + 1, c =>
    match stream_step t c with
    | .cont c2 => stream_iter t tok fuel c2
    | .exitAt pp fp => stream_exit t pp fp tok
    | .err => none

lemma stream_iter_succ (t : PNode) (tok : String) (fuel : Nat) (c : Cfg) :
    stream_iter t tok (fuel + 1) c
      = match stream_step t c with
        | .cont c2 => stream_iter t tok fuel c2
        | .exitAt pp fp => stream_exit t pp fp tok
        | .err => none := rfl

/-- `stream` on an entry whose value is `v`: the initial loop state has
`value_panel = self` (the entry, modelled as a `widgetPane` wrapper whose
`value` attribute holds `v`), `value = self.value`, no remembered parent and
`i = -1`. -/
def stream_run (v : PNode) (tok : String) (fuel : Nat) : Option PNode :=
  match stream_iter (PNode.widgetPane v) tok fuel ⟨[], [0], none, 1⟩ with
  | some (.widgetPane v2) => some v2
  | _ => none

/-- If one loop iteration maps a non-exit state to itself, the loop never
returns, whatever the fuel. -/
lemma stream_iter_fix (t : PNode) (tok : String) (c : Cfg)
    (h : stream_step t c = .cont c) :
    ∀ fuel, stream_iter t tok fuel c = none := by
  intro fuel
  induction fuel with
  | zero => rfl
  | succ n ih =>
    rw [stream_iter_succ, h]
    exact ih

lemma getElem?_concat {α : Type} (cs : List α) (x : α) :
    (cs ++ [x])[cs.length]? = some x := by
  induction cs with
  | nil => rfl
  | cons a rest ih =>
    simp

lemma set_concat {α : Type} (cs : List α) (x y : α) :
    (cs ++ [x]).set cs.length y = cs ++ [y] := by
  induction cs with
  | nil => rfl
  | cons a rest ih =>
    simp only [List.cons_append, List.length_cons, List.set, List.append_eq]
    rw [ih]

/-- Counterexample for C4 as stated: not every entry value lets `stream`
terminate.  For the entry value `42` — not a string and bearing none of the
`objects`/`object`/`value` attributes — the loop reaches a state it maps to
itself without exiting (there is no string-bearing leaf to reach), so the
traversal spins forever; in particular the run returns nothing even after
1000 iterations. -/
theorem stream_nonterm_cex :
    stream_step (PNode.widgetPane (PNode.rawVal 42)) ⟨[0], [0], none, 1⟩
      = .cont ⟨[0], [0], none, 1⟩
    ∧ isExitCfg (PNode.widgetPane (PNode.rawVal 42)) ⟨[0], [0], none, 1⟩ = false
    ∧ stream_run (PNode.rawVal 42) "x" 1000 = none := by
  refine ⟨rfl, rfl, ?_⟩
  have hfirst : stream_step (PNode.widgetPane (PNode.rawVal 42)) ⟨[], [0], none, 1⟩
      = .cont ⟨[0], [0], none, 1⟩ := rfl
  have hrun : stream_iter (PNode.widgetPane (PNode.rawVal 42)) "x" 1000
      ⟨[], [0], none, 1⟩ = none := by
    have h1000 : (1000 : Nat) = 999 + 1 := rfl
    rw [h1000, stream_iter_succ, hfirst]
    exact stream_iter_fix (PNode.widgetPane (PNode.rawVal 42)) "x"
      ⟨[0], [0], none, 1⟩ rfl 999
  simp only [stream_run, hrun]

/-- C4 (amended): for every entry value that is a plain string, a container
whose last child is a text pane (with arbitrary sibling content before it),
or a container ending in an image pane preceded by a text pane (the
documented backtracking case), `stream(token)` terminates, appends the token
to that string leaf without replacing existing content, and leaves every
sibling untouched; `stream("x")` on the plain string "hi" yields "hix".
Termination does not hold for every entry value: a value with no
string-bearing leaf (such as the integer 42) makes the traversal loop
forever. -/
theorem stream_append_spec (s a b tok : String) (cs : List PNode) (fuel : Nat) :
    stream_run (.strVal s) tok (fuel + 1) = some (.strVal (s ++ tok))
    ∧ stream_run (.layout (cs ++ [.htmlPane (.strVal s)])) tok (fuel + 3)
        = some (.layout (cs ++ [.htmlPane (.strVal (s ++ tok))]))
    ∧ stream_run (.layout [.htmlPane (.strVal a), .imagePane (.strVal b)]) tok
          (fuel + 6)
        = some (.layout [.htmlPane (.strVal (a ++ tok)), .imagePane (.strVal b)]) := by
  refine ⟨rfl, ?_, rfl⟩
  have hfocus2 : nodeAt (PNode.widgetPane (PNode.layout
      (cs ++ [PNode.htmlPane (PNode.strVal s)]))) [0, cs.length]
      = some (PNode.htmlPane (PNode.strVal s)) := by
    show (match (cs ++ [PNode.htmlPane (PNode.strVal s)])[cs.length]? with
          | some c => nodeAt c []
          | none => none) = some (PNode.htmlPane (PNode.strVal s))
    rw [getElem?_concat]
    rfl
  have hfocus3 : nodeAt (PNode.widgetPane (PNode.layout
      (cs ++ [PNode.htmlPane (PNode.strVal s)]))) [0, cs.length, 0]
      = some (PNode.strVal s) := by
    show (match (cs ++ [PNode.htmlPane (PNode.strVal s)])[cs.length]? with
          | some c => nodeAt c [0]
          | none => none) = some (PNode.strVal s)
    rw [getElem?_concat]
    rfl
  have hstep1 : stream_step (PNode.widgetPane (PNode.layout
      (cs ++ [PNode.htmlPane (PNode.strVal s)]))) ⟨[], [0], none, 1⟩
      = .cont ⟨[0], [0, cs.length], some [0], 1⟩ := by
    have hlen : (cs ++ [PNode.htmlPane (PNode.strVal s)]).length = cs.length + 1 := by
      simp
    show (if 1 ≤ 1 ∧ 1 ≤ (cs ++ [PNode.htmlPane (PNode.strVal s)]).length then
            StepRes.cont ⟨[0], [0] ++
              [(cs ++ [PNode.htmlPane (PNode.strVal s)]).length - 1], some [0], 1⟩
          else StepRes.err)
        = StepRes.cont ⟨[0], [0, cs.length], some [0], 1⟩
    rw [hlen, if_pos ⟨le_refl 1, by omega⟩]
    simp
  have hstr2 : isStrAt (PNode.widgetPane (PNode.layout
      (cs ++ [PNode.htmlPane (PNode.strVal s)]))) [0, cs.length] = false := by
    simp only [isStrAt, hfocus2]
  have hexit2 : isExitCfg (PNode.widgetPane (PNode.layout
      (cs ++ [PNode.htmlPane (PNode.strVal s)]))) ⟨[0], [0, cs.length], some [0], 1⟩
      = false := by
    simp only [isExitCfg, hstr2, Bool.false_and]
  have hstep2 : stream_step (PNode.widgetPane (PNode.layout
      (cs ++ [PNode.htmlPane (PNode.strVal s)]))) ⟨[0], [0, cs.length], some [0], 1⟩
      = .cont ⟨[0, cs.length], [0, cs.length, 0], some [0], 1⟩ := by
    simp only [stream_step, hexit2, Bool.false_eq_true, if_false, hfocus2]
    simp
  have hstr3 : isStrAt (PNode.widgetPane (PNode.layout
      (cs ++ [PNode.htmlPane (PNode.strVal s)]))) [0, cs.length, 0] = true := by
    simp only [isStrAt, hfocus3]
  have himg3 : isImageAt (PNode.widgetPane (PNode.layout
      (cs ++ [PNode.htmlPane (PNode.strVal s)]))) [0, cs.length] = false := by
    simp only [isImageAt, hfocus2]
  have hstep3 : stream_step (PNode.widgetPane (PNode.layout
      (cs ++ [PNode.htmlPane (PNode.strVal s)])))
        ⟨[0, cs.length], [0, cs.length, 0], some [0], 1⟩
      = .exitAt [0, cs.length] [0, cs.length, 0] := by
    simp only [stream_step, isExitCfg, hstr3, himg3, Bool.not_false, Bool.and_true,
      if_true]
  have hexitr : stream_exit (PNode.widgetPane (PNode.layout
      (cs ++ [PNode.htmlPane (PNode.strVal s)]))) [0, cs.length] [0, cs.length, 0] tok
      = some (PNode.widgetPane (PNode.layout
          (cs ++ [PNode.htmlPane (PNode.strVal (s ++ tok))]))) := by
    simp only [stream_exit, hfocus3, hfocus2]
    congr 1
    show PNode.widgetPane
        (match (cs ++ [PNode.htmlPane (PNode.strVal s)])[cs.length]? with
         | some c => PNode.layout ((cs ++ [PNode.htmlPane (PNode.strVal s)]).set
             cs.length
             (updateAt c [] (fun _ => PNode.htmlPane (PNode.strVal (s ++ tok)))))
         | none => PNode.layout (cs ++ [PNode.htmlPane (PNode.strVal s)]))
        = PNode.widgetPane (PNode.layout
            (cs ++ [PNode.htmlPane (PNode.strVal (s ++ tok))]))
    rw [getElem?_concat]
    show PNode.widgetPane (PNode.layout
        ((cs ++ [PNode.htmlPane (PNode.strVal s)]).set cs.length
          (PNode.htmlPane (PNode.strVal (s ++ tok)))))
        = PNode.widgetPane (PNode.layout
            (cs ++ [PNode.htmlPane (PNode.strVal (s ++ tok))]))
    rw [set_concat]
  have hiter : stream_iter (PNode.widgetPane (PNode.layout
      (cs ++ [PNode.htmlPane (PNode.strVal s)]))) tok (fuel + 3) ⟨[], [0], none, 1⟩
      = some (PNode.widgetPane (PNode.layout
          (cs ++ [PNode.htmlPane (PNode.strVal (s ++ tok))]))) := by
    have e1 : fuel + 3 = (fuel + 2) + 1 := rfl
    rw [e1, stream_iter_succ, hstep1]
    show stream_iter (PNode.widgetPane (PNode.layout
        (cs ++ [PNode.htmlPane (PNode.strVal s)]))) tok (fuel + 2)
        ⟨[0], [0, cs.length], some [0], 1⟩
        = some (PNode.widgetPane (PNode.layout
            (cs ++ [PNode.htmlPane (PNode.strVal (s ++ tok))])))
    have e2 : fuel + 2 = (fuel + 1) + 1 := rfl
    rw [e2, stream_iter_succ, hstep2]
    show stream_iter (PNode.widgetPane (PNode.layout
        (cs ++ [PNode.htmlPane (PNode.strVal s)]))) tok (fuel + 1)
        ⟨[0, cs.length], [0, cs.length, 0], some [0], 1⟩
        = some (PNode.widgetPane (PNode.layout
            (cs ++ [PNode.htmlPane (PNode.strVal (s ++ tok))])))
    rw [stream_iter_succ, hstep3]
    exact hexitr
  show stream_run (PNode.layout (cs ++ [PNode.htmlPane (PNode.strVal s)])) tok
      (fuel + 3)
      = some (PNode.layout (cs ++ [PNode.htmlPane (PNode.strVal (s ++ tok))]))
  simp only [stream_run, hiter]

end Chat
